import Mathlib

/-!
Verification of the Smart Window core against its specification: the
query-intent classifier, the live-suggestion pipeline, the context
cache key, the prompts cache, the chat persistence store and the
debounce discipline.

Modelling conventions: JS strings are Lean `String` / `List Char`
(ASCII-faithful; `toLowerCase` is modelled by the ASCII `Char.toLower`);
JS `Map`s are association lists with latest-write-wins lookup; promises
are numeric identities with explicit settlement transitions; times are
natural-number milliseconds.
-/

/-- The four intent types returned by `detectQueryType` in
`smartwindow.mjs`. -/
inductive QueryType where
  | navigate
  | chat
  | action
  | search
deriving DecidableEq, Repr

/-- The whitespace characters relevant to `String.prototype.trim` here. -/
def jsWhitespace (c : Char) : Bool :=
  c = ' ' || c = '\t' || c = '\n' || c = '\r' || c = '\x0b' || c = '\x0c'

/-- Model of JS `trim()`: drop whitespace from both ends. -/
def jsTrim (cs : List Char) : List Char :=
  ((cs.dropWhile jsWhitespace).reverse.dropWhile jsWhitespace).reverse

/-- `query.trim().toLowerCase()` from `detectQueryType` line 43. -/
def jsNormalize (q : String) : List Char :=
  (jsTrim q.data).map Char.toLower

/-- Characters of the regex class `[a-zA-Z0-9.-]`. -/
def hostChar (c : Char) : Bool :=
  c.isAlpha || c.isDigit || c = '.' || c = '-'

/-- Characters matched by `.` in a JS regex without the `s` flag
(anything but a line terminator). -/
def jsDotChar (c : Char) : Bool :=
  !(c = '\n' || c = '\r' || c = '\u2028' || c = '\u2029')

/-- Whole-string match of `[a-zA-Z0-9.-]+\.[a-zA-Z]{2,}`: some split
`A ++ "." ++ T` with `A` nonempty over the host class and `T` at least
two ASCII letters reaching the end. -/
def matchBareHost (cs : List Char) : Bool :=
  (List.range cs.length).any fun i =>
    decide (1 ≤ i) && (cs.take i).all hostChar && (cs.get? i == some '.') &&
      decide (2 ≤ (cs.drop (i + 1)).length) && (cs.drop (i + 1)).all Char.isAlpha

/-- Whole-string match of `[a-zA-Z0-9.-]+\.[a-zA-Z]{2,}(\/.*)?$`: the
bare host optionally followed by `/` and a path of non-line-terminator
characters. -/
def matchHostWithPath (cs : List Char) : Bool :=
  (List.range (cs.length + 1)).any fun i =>
    matchBareHost (cs.take i) &&
      (let rest := cs.drop i
       rest.isEmpty || ((rest.head? == some '/') && rest.tail.all jsDotChar))

/-- `trimmedQuery.replace(/^https?:\/\//, "")` (line 48). -/
def stripHttpPrefix (cs : List Char) : List Char :=
  if "https://".data.isPrefixOf cs then cs.drop 8
  else if "http://".data.isPrefixOf cs then cs.drop 7
  else cs

/-- `/^(about|https?):/` (line 46). -/
def hasSchemePrefix (cs : List Char) : Bool :=
  "about:".data.isPrefixOf cs || "http:".data.isPrefixOf cs ||
    "https:".data.isPrefixOf cs

/-- Word characters for the regex `\b` boundary. -/
def wordChar (c : Char) : Bool := c.isAlpha || c.isDigit || c = '_'

/-- `/^(who|what|when|where|why|how|can)\b/i` on the already-lowercased
input: some alternative is a prefix and the following character, if any,
is not a word character. -/
def startsWithInterrogative (cs : List Char) : Bool :=
  ["who", "what", "when", "where", "why", "how", "can"].any fun w =>
    w.data.isPrefixOf cs &&
      ((cs.drop w.length).head?.all fun c => !wordChar c)

/-- `detectQueryType` from `smartwindow.mjs` lines 42-77: the ordered
rules navigate / navigate (bare host) / chat / action / search. -/
def detectQueryType (q : String) : QueryType :=
  let t := jsNormalize q
  if hasSchemePrefix t || matchHostWithPath (stripHttpPrefix t) then .navigate
  else if matchBareHost t && !t.contains ' ' then .navigate
  else if startsWithInterrogative t || t.getLast? == some '?' then .chat
  else if "tab".data.isPrefixOf t || "find".data.isPrefixOf t ||
      "tab switch:".data.isPrefixOf t then .action
  else .search

example : detectQueryType "example.com" = QueryType.navigate := by decide
example : detectQueryType "example.com?" = QueryType.chat := by decide
example : detectQueryType "example.com/a?" = QueryType.navigate := by decide
example : detectQueryType "about:config?" = QueryType.navigate := by decide
example : detectQueryType "what is rust" = QueryType.chat := by decide
example : detectQueryType "tab next" = QueryType.action := by decide
example : detectQueryType "flights to boston" = QueryType.search := by decide
example : detectQueryType "  HTTPS://Example.COM/x " = QueryType.navigate := by decide
example : detectQueryType "whoa" = QueryType.search := by decide

/-- A suggestion as emitted by the pipeline: a display text and an
intent type (the other mapped fields are not used past the mapping). -/
structure Suggestion where
  text : String
  type : QueryType
deriving DecidableEq, Repr

/-- The fallback-append loop of `generateLiveSuggestions`
(lines 1306-1313): stop at six entries, skip texts already present. -/
def addFallbacks (base : List Suggestion) : List Suggestion → List Suggestion
  | [] => base
  | fb :: rest =>
      if 6 ≤ base.length then base
      else if base.any (fun s => s.text == fb.text) then addFallbacks base rest
      else addFallbacks (base ++ [fb]) rest

/-- The fixed synthetic fallbacks of the success path (lines
1299-1304). -/
def syntheticFallbacks (query : String) : List Suggestion :=
  [⟨"tab next", QueryType.action⟩, ⟨"github.com", QueryType.navigate⟩,
   ⟨query ++ " guide", QueryType.search⟩,
   ⟨query ++ " tutorial", QueryType.search⟩]

/-- Lines 1233-1259: the entries derived from the search-typed mapped
results (first doubled as search and chat, next four re-classified). -/
def searchDerived (results : List Suggestion) : List Suggestion :=
  match results.filter (fun s => s.type == QueryType.search) with
  | [] => []
  | first :: rest =>
      ⟨first.text, QueryType.search⟩ :: ⟨first.text ++ "?", QueryType.chat⟩ ::
        (rest.take 4).map (fun r => ⟨r.text, detectQueryType r.text⟩)

/-- Lines 1280-1315: the under-four fill-in (the query itself and its
chat variant) followed by the under-six synthetic fallbacks. -/
def fillToMinimum (query : String) (sugs : List Suggestion) :
    List Suggestion :=
  if sugs.length < 4 then
    let queryType := detectQueryType query
    let withQuery :=
      if sugs.any (fun s => s.text == query) then sugs
      else sugs ++ [⟨query, queryType⟩]
    let withVariant :=
      if queryType == QueryType.search &&
          !withQuery.any (fun s => s.text == query ++ "?") then
        withQuery ++ [⟨query ++ "?", QueryType.chat⟩]
      else withQuery
    if withVariant.length < 6 then
      addFallbacks withVariant (syntheticFallbacks query)
    else withVariant
  else sugs

/-- Success path of `generateLiveSuggestions` (lines 1230-1318), from
the mapped urlbar results to the list handed to `showSuggestions`:
search-derived entries, then up to two navigate and up to two action
results as-is, then the fill-in stage, then `slice(0, 10)`. -/
def generateSuggestionsFromResults (query : String)
    (results : List Suggestion) : List Suggestion :=
  let withNav := searchDerived results ++
    ((results.filter (fun s => s.type == QueryType.navigate)).take 2).map
      (fun s => ⟨s.text, s.type⟩)
  let withAction := withNav ++
    ((results.filter (fun s => s.type == QueryType.action)).take 2).map
      (fun s => ⟨s.text, s.type⟩)
  (fillToMinimum query withAction).take 10

/-- Appends a suggestion unless its text is already present (the
"ensure present" step of the spec). -/
def ensurePresent (l : List Suggestion) (s : Suggestion) : List Suggestion :=
  if l.any (fun x => x.text == s.text) then l else l ++ [s]

/-- The spec's merged section list: first search result doubled as
search and chat, next up to four search results re-classified, then up
to two navigate and two action results unmodified, in original order. -/
def specMerged (results : List Suggestion) : List Suggestion :=
  let searchTexts :=
    (results.filter (fun s => s.type == QueryType.search)).map Suggestion.text
  let head : List Suggestion :=
    match searchTexts with
    | [] => []
    | t :: _ => [⟨t, QueryType.search⟩, ⟨t ++ "?", QueryType.chat⟩]
  let reclassified :=
    ((searchTexts.drop 1).take 4).map (fun t => ⟨t, detectQueryType t⟩)
  head ++ reclassified ++
    (results.filter (fun s => s.type == QueryType.navigate)).take 2 ++
    (results.filter (fun s => s.type == QueryType.action)).take 2

/-- The spec's fill-in: below four entries ensure the classified query
(and, when it classifies search, its chat variant) are present; below
six append the fixed fallbacks, skipping duplicate texts, up to six. -/
def specFill (query : String) (merged : List Suggestion) : List Suggestion :=
  if merged.length < 4 then
    let qt := detectQueryType query
    let withQuery := ensurePresent merged ⟨query, qt⟩
    let withVariant :=
      if qt == QueryType.search then
        ensurePresent withQuery ⟨query ++ "?", QueryType.chat⟩
      else withQuery
    if withVariant.length < 6 then
      (syntheticFallbacks query).foldl
        (fun acc fb =>
          if acc.length < 6 && !acc.any (fun s => s.text == fb.text) then
            acc ++ [fb]
          else acc) withVariant
    else withVariant
  else merged

/-- Reference construction of the ranking policy, phrased from the
spec's words, with final truncation to ten entries. -/
def specLiveSuggestions (query : String)
    (results : List Suggestion) : List Suggestion :=
  (specFill query (specMerged results)).take 10

/-- Error path of `generateLiveSuggestions` (catch block, lines
1320-1340): the fixed four-entry fallback list. -/
def liveSuggestionsErrorFallback (query : String) : List Suggestion :=
  let t := detectQueryType query
  [⟨query, t⟩,
   ⟨query ++ (if t == QueryType.search then "?" else ""),
    if t == QueryType.search then QueryType.chat else QueryType.search⟩,
   ⟨"tab next", QueryType.action⟩,
   ⟨"github.com", QueryType.navigate⟩]

/-- The spec's "toggled type": search becomes chat, anything else
becomes search. -/
def toggledType (t : QueryType) : QueryType :=
  if t = QueryType.search then QueryType.chat else QueryType.search

example :
    generateSuggestionsFromResults "flights to boston"
      [⟨"flights to boston", QueryType.search⟩] =
    specLiveSuggestions "flights to boston"
      [⟨"flights to boston", QueryType.search⟩] := by decide
example :
    (generateSuggestionsFromResults "flights to boston"
      [⟨"flights to boston", QueryType.search⟩]).take 2 =
    [⟨"flights to boston", QueryType.search⟩,
     ⟨"flights to boston?", QueryType.chat⟩] := by decide
example :
    generateSuggestionsFromResults "q"
      [⟨"s1", QueryType.search⟩, ⟨"n1", QueryType.navigate⟩,
       ⟨"n2", QueryType.navigate⟩, ⟨"a1", QueryType.action⟩] =
    specLiveSuggestions "q"
      [⟨"s1", QueryType.search⟩, ⟨"n1", QueryType.navigate⟩,
       ⟨"n2", QueryType.navigate⟩, ⟨"a1", QueryType.action⟩] := by decide
example : (liveSuggestionsErrorFallback "boston").length = 4 := by decide

/-- A context document (tab) as carried around by the Smart Window:
a stable id plus display title and url (the favicon field is display
only and omitted). -/
structure TabInfo where
  tabId : String
  title : String
  url : String
deriving DecidableEq, Repr

/-- The per-member string `` `${tab.title}|${tab.url}` `` of
`getContextCacheKey`, as a character list. -/
def tabKeyStr (tab : TabInfo) : List Char :=
  tab.title.data ++ '|' :: tab.url.data

/-- `.join("::")` on character lists. -/
def joinSep : List (List Char) → List Char
  | [] => []
  | [a] => a
  | a :: b :: rest => a ++ ':' :: ':' :: joinSep (b :: rest)

/-- `getContextCacheKey` from `browser-smart-window.js` lines 465-470:
map each tab to `title|url`, sort lexicographically (JS default sort on
code units), join with `"::"`.  Modelled on character lists. -/
def getContextCacheKey (contextTabs : List TabInfo) : List Char :=
  joinSep (List.insertionSort (· ≤ ·) (contextTabs.map tabKeyStr))

example :
    getContextCacheKey [⟨"1", "b", "u"⟩, ⟨"2", "a", "v"⟩] =
      "a|v::b|u".data := by decide
example :
    getContextCacheKey [⟨"1", ":", "a:::|b"⟩, ⟨"2", ":", "a:::|b:::|a"⟩] =
      getContextCacheKey [⟨"1", ":", "b:::|a"⟩, ⟨"2", ":", "a:::|b:::|a"⟩] := by
  decide

/-- Association-list lookup modelling `Map.prototype.get`. -/
def mapGet (m : List (String × α)) (k : String) : Option α :=
  (m.find? (fun p => p.1 == k)).map Prod.snd

/-- Association-list deletion modelling `Map.prototype.delete`. -/
def mapDelete (m : List (String × α)) (k : String) : List (String × α) :=
  m.filter (fun p => !(p.1 == k))

/-- Association-list update modelling `Map.prototype.set`:
latest write wins for lookup. -/
def mapSet (m : List (String × α)) (k : String) (v : α) : List (String × α) :=
  (k, v) :: mapDelete m k

/-- `_promptsCacheExpiry: 5 * 60 * 1000` (browser-smart-window.js
line 17). -/
def promptsCacheExpiry : Nat := 5 * 60 * 1000

/-- A `_promptsCache` entry: the identity of the stored promise and the
write timestamp. -/
structure CacheEntry where
  pid : Nat
  timestamp : Nat
deriving DecidableEq, Repr

/-- `getPromptsFromCache` (lines 401-412): return the stored promise
only while the entry is younger than the expiry. -/
def getPromptsFromCache (cache : List (String × CacheEntry))
    (cacheKey : String) (now : Nat) : Option Nat :=
  match mapGet cache cacheKey with
  | some e => if now - e.timestamp < promptsCacheExpiry then some e.pid else none
  | none => none

/-- `cleanupPromptsCache` (lines 455-462): delete every entry whose age
reached the expiry. -/
def cleanupPromptsCache (cache : List (String × CacheEntry))
    (now : Nat) : List (String × CacheEntry) :=
  cache.filter (fun p => now - p.2.timestamp < promptsCacheExpiry)

/-- `setPromptsCache` (lines 414-453), promise branch: store the pending
promise immediately under the current timestamp, then sweep. -/
def setPromptsCache (cache : List (String × CacheEntry))
    (cacheKey : String) (pid : Nat) (now : Nat) : List (String × CacheEntry) :=
  cleanupPromptsCache (mapSet cache cacheKey ⟨pid, now⟩) now

/-- The `.then` handler installed by `setPromptsCache` (lines 425-435):
when the promise resolves, replace the entry by a pre-resolved promise,
but only if the entry with the same timestamp is still there. -/
def promptsCacheOnResolve (cache : List (String × CacheEntry))
    (cacheKey : String) (timestamp : Nat) (resolvedPid : Nat) :
    List (String × CacheEntry) :=
  match mapGet cache cacheKey with
  | some current =>
      if current.timestamp = timestamp then
        mapSet cache cacheKey ⟨resolvedPid, timestamp⟩
      else cache
  | none => cache

/-- The `.catch` handler installed by `setPromptsCache` (lines 436-442):
when the promise rejects, delete the entry, but only if the entry with
the same timestamp is still there. -/
def promptsCacheOnReject (cache : List (String × CacheEntry))
    (cacheKey : String) (timestamp : Nat) : List (String × CacheEntry) :=
  match mapGet cache cacheKey with
  | some current =>
      if current.timestamp = timestamp then mapDelete cache cacheKey
      else cache
  | none => cache

/-- State for the cached generation flow of `generateQuickPrompts`:
the shared cache, a counter of generation calls, and a supply of fresh
promise identities. -/
structure GenState where
  cache : List (String × CacheEntry)
  genCount : Nat
  nextPid : Nat
deriving DecidableEq, Repr

/-- The cached path of `generateQuickPrompts` (smartwindow.mjs lines
130-143) for a non-empty context with derived key `cacheKey`: consult
the cache; on a hit return the cached promise, on a miss start
`_generatePromptsInternal` (counted in `genCount`) and store its pending
promise before yielding.  There is no await between the lookup and the
store, so the step is atomic. -/
def generateQuickPromptsForKey (st : GenState) (cacheKey : String)
    (now : Nat) : Nat × GenState :=
  match getPromptsFromCache st.cache cacheKey now with
  | some pid => (pid, st)
  | none =>
      (st.nextPid,
       { cache := setPromptsCache st.cache cacheKey st.nextPid now,
         genCount := st.genCount + 1,
         nextPid := st.nextPid + 1 })

example :
    (generateQuickPromptsForKey
      (generateQuickPromptsForKey ⟨[], 0, 0⟩ "k" 0).2 "k" 10).1 = 0 := by decide
example :
    ((generateQuickPromptsForKey
      (generateQuickPromptsForKey ⟨[], 0, 0⟩ "k" 0).2 "k" 10).2).genCount = 1 := by
  decide
example :
    ((generateQuickPromptsForKey
      (generateQuickPromptsForKey ⟨[], 0, 0⟩ "k" 0).2 "k"
        promptsCacheExpiry).2).genCount = 2 := by decide

/-- A chat transcript message (role and content; the store treats
transcripts opaquely). -/
structure ChatMessage where
  role : String
  content : String
deriving DecidableEq, Repr

/-- `getChatMessages` (browser-smart-window.js lines 473-475):
`_chatMessagesByTab.get(tabId) || []`. -/
def getChatMessages (store : List (String × List ChatMessage))
    (tabId : String) : List ChatMessage :=
  (mapGet store tabId).getD []

/-- `setChatMessages` (lines 477-483): store a copy when non-empty,
delete the entry when empty. -/
def setChatMessages (store : List (String × List ChatMessage))
    (tabId : String) (messages : List ChatMessage) :
    List (String × List ChatMessage) :=
  if messages.isEmpty then mapDelete store tabId
  else mapSet store tabId messages

/-- The smart-window panel state relevant to context transitions:
the context set, the last tab notification, the chat component's
transcript, whether chat (conversation) presentation is shown, and the
shared per-tab transcript store. -/
structure SWState where
  selectedTabContexts : List TabInfo
  lastTabInfo : Option TabInfo
  chatMessages : List ChatMessage
  chatMode : Bool
  store : List (String × List ChatMessage)
deriving DecidableEq, Repr

/-- `isTabEligibleForContext` (smartwindow.mjs lines 547-562). -/
def isTabEligibleForContext (t : TabInfo) : Bool :=
  if t.url.isEmpty then false
  else
    let url := t.url.toLower
    !(url.startsWith "about:") && !(url.startsWith "chrome:") &&
      !(url.startsWith "moz-extension:") && !(url.startsWith "resource:") &&
      !(url == "about:blank")

/-- `saveChatMessagesForCurrentContext` (lines 589-599): when the
transcript is non-empty, write it under every tab id of the current
context; otherwise do nothing. -/
def saveChatMessagesForCurrentContext (st : SWState) : SWState :=
  if st.chatMessages.isEmpty then st
  else
    { st with store :=
        (st.selectedTabContexts.foldl
          (fun s tab => setChatMessages s tab.tabId st.chatMessages) st.store) }

/-- The scan loop of `loadChatMessagesForCurrentContext` (lines
614-623): walk the context in order, stopping at the first tab with a
non-empty stored transcript. -/
def scanContextsForMessages (store : List (String × List ChatMessage)) :
    List TabInfo → List ChatMessage
  | [] => []
  | t :: rest =>
      let m := getChatMessages store t.tabId
      if m.isEmpty then scanContextsForMessages store rest else m

/-- `loadChatMessagesForCurrentContext` (lines 602-638): prefer the
current tab when it belongs to the context, otherwise scan the context
in order; install the result in the chat component and flip the
presentation mode (conversation when non-empty, results when empty). -/
def loadChatMessagesForCurrentContext (st : SWState) : SWState :=
  let fromCurrent :=
    match st.lastTabInfo with
    | some ti =>
        if st.selectedTabContexts.any (fun t => t.tabId == ti.tabId) then
          getChatMessages st.store ti.tabId
        else []
    | none => []
  let saved :=
    if fromCurrent.isEmpty then
      scanContextsForMessages st.store st.selectedTabContexts
    else fromCurrent
  if saved.isEmpty then { st with chatMessages := [], chatMode := false }
  else { st with chatMessages := saved, chatMode := true }

/-- `resetContextToCurrentTab` (lines 573-586): flush the outgoing
context, install `[lastTabInfo]` when eligible (else the empty set),
then load for the new context. -/
def resetContextToCurrentTab (st : SWState) : SWState :=
  let st1 := saveChatMessagesForCurrentContext st
  let st2 :=
    { st1 with selectedTabContexts :=
        match st1.lastTabInfo with
        | some ti => if isTabEligibleForContext ti then [ti] else []
        | none => [] }
  loadChatMessagesForCurrentContext st2

/-- The context/persistence effect of `updateTabStatus` (lines
1073-1102): record the new tab info, and unless the new url is exactly
`about:blank`, run the reset/save/load sequence.  (Pure UI calls and
the page-text extraction are outside the model.) -/
def updateTabStatus (tabInfo : TabInfo) (st : SWState) : SWState :=
  let st1 := { st with lastTabInfo := some tabInfo }
  if tabInfo.url == "about:blank" then st1
  else resetContextToCurrentTab st1

/-- State of the live-suggestion debounce in `handleSearch`: the
pending timer (fire deadline and captured query) and the queries issued
to the external autocomplete source so far. -/
structure DebounceState where
  timer : Option (Nat × String)
  issued : List String
deriving DecidableEq, Repr

/-- The debounce skeleton of `handleSearch` (smartwindow.mjs lines
1127-1154): always clear any pending timer first; an empty query shows
quick prompts (no external query, no timer); a non-empty query starts a
fresh 50 ms timer that will issue `generateLiveSuggestions(query)`. -/
def handleSearchStep (now : Nat) (query : String)
    (st : DebounceState) : DebounceState :=
  let cleared : DebounceState := { st with timer := none }
  if (jsTrim query.data).isEmpty then cleared
  else { cleared with timer := some (now + 50, query) }

/-- Firing the pending debounce timer: issue the captured query. -/
def fireDebounceTimer (st : DebounceState) : DebounceState :=
  match st.timer with
  | some (_, q) => { timer := none, issued := st.issued ++ [q] }
  | none => st

/-- Whether the pending timer's deadline has been reached. -/
def timerDue (timer : Option (Nat × String)) (now : Nat) : Bool :=
  match timer with
  | some (deadline, _) => deadline ≤ now
  | none => false

/-- Event-loop run of a sequence of timed `handleSearch` calls: before
each call, fire the pending timer if its deadline has passed; after the
last call, let any pending timer fire. -/
def runHandleSearch (st : DebounceState) :
    List (Nat × String) → DebounceState
  | [] => fireDebounceTimer st
  | (t, q) :: rest =>
      let st1 := if timerDue st.timer t then fireDebounceTimer st else st
      runHandleSearch (handleSearchStep t q st1) rest

example :
    (runHandleSearch ⟨none, []⟩ [(0, "a"), (10, "ab"), (20, "abc")]).issued =
      ["abc"] := by decide
example :
    (runHandleSearch ⟨none, []⟩ [(0, "a"), (100, "ab")]).issued =
      ["a", "ab"] := by decide

theorem mapGet_mapDelete (m : List (String × α)) (k k' : String) :
    mapGet (mapDelete m k) k' = if k' = k then none else mapGet m k' := by
  induction m with
  | nil => simp [mapGet, mapDelete]
  | cons a rest ih =>
      obtain ⟨ka, va⟩ := a
      by_cases hak : ka = k <;> by_cases hak' : ka = k' <;>
        by_cases hkk : k' = k <;>
        simp_all [mapGet, mapDelete, List.filter_cons, List.find?_cons]

theorem mapGet_mapSet (m : List (String × α)) (k k' : String) (v : α) :
    mapGet (mapSet m k v) k' = if k' = k then some v else mapGet m k' := by
  have hd := mapGet_mapDelete m k k'
  by_cases h : k' = k
  · simp [mapSet, mapGet, List.find?_cons, h]
  · have hk : (k == k') = false := by
      simp only [beq_eq_false_iff_ne, ne_eq]
      exact fun hh => h hh.symm
    simp only [mapSet, mapGet, List.find?_cons, hk, cond_false] at *
    rw [if_neg h] at hd
    rw [if_neg h]
    exact hd

/-- C4: when the stored generation promise for a key rejects while the
entry written for it (identified by its timestamp, hence not yet
superseded by a newer write) is still present, the `.catch` handler
deletes the entry, so `getPromptsFromCache` afterwards returns null at
any time, and the next `generateQuickPrompts` call for the key re-runs
generation instead of receiving a cached failure. -/
theorem rejectedGeneration_leavesNoEntry
    (cache : List (String × CacheEntry)) (cacheKey : String)
    (timestamp now : Nat) (e : CacheEntry)
    (hget : mapGet cache cacheKey = some e) (hts : e.timestamp = timestamp) :
    getPromptsFromCache (promptsCacheOnReject cache cacheKey timestamp)
        cacheKey now = none ∧
    ∀ g p, ((generateQuickPromptsForKey
        ⟨promptsCacheOnReject cache cacheKey timestamp, g, p⟩
        cacheKey now).2).genCount = g + 1 := by
  have hdel : promptsCacheOnReject cache cacheKey timestamp =
      mapDelete cache cacheKey := by
    unfold promptsCacheOnReject
    rw [hget]
    simp [hts]
  have hnone : getPromptsFromCache
      (promptsCacheOnReject cache cacheKey timestamp) cacheKey now = none := by
    rw [hdel]
    unfold getPromptsFromCache
    rw [mapGet_mapDelete]
    simp
  refine ⟨hnone, fun g p => ?_⟩
  unfold generateQuickPromptsForKey
  simp only [hnone]

/-- Witness: a concrete rejected entry is gone and retried. -/
theorem rejectedGeneration_leavesNoEntry_witness :
    getPromptsFromCache
        (promptsCacheOnReject [("k", ⟨7, 5⟩)] "k" 5) "k" 6 = none ∧
    ∀ g p, ((generateQuickPromptsForKey
        ⟨promptsCacheOnReject [("k", ⟨7, 5⟩)] "k" 5, g, p⟩
        "k" 6).2).genCount = g + 1 :=
  rejectedGeneration_leavesNoEntry [("k", ⟨7, 5⟩)] "k" 5 6 ⟨7, 5⟩
    (by decide) (by decide)

/-- C1 (amended): a second `generateQuickPrompts` call for the same key
issued after a first call stored its pending promise, before any
settlement and within the cache TTL, receives the very same in-flight
promise and leaves the state unchanged, so generation ran exactly once
for the two calls. -/
theorem secondCall_sharesInflightPromise
    (st : GenState) (cacheKey : String) (t0 t1 : Nat)
    (hmiss : getPromptsFromCache st.cache cacheKey t0 = none)
    (hwin : t1 - t0 < promptsCacheExpiry) :
    (generateQuickPromptsForKey
        ((generateQuickPromptsForKey st cacheKey t0).2) cacheKey t1).1 =
      (generateQuickPromptsForKey st cacheKey t0).1 ∧
    (generateQuickPromptsForKey
        ((generateQuickPromptsForKey st cacheKey t0).2) cacheKey t1).2 =
      (generateQuickPromptsForKey st cacheKey t0).2 ∧
    ((generateQuickPromptsForKey st cacheKey t0).2).genCount =
      st.genCount + 1 := by
  have hfst : generateQuickPromptsForKey st cacheKey t0 =
      (st.nextPid,
       { cache := setPromptsCache st.cache cacheKey st.nextPid t0,
         genCount := st.genCount + 1,
         nextPid := st.nextPid + 1 }) := by
    unfold generateQuickPromptsForKey
    rw [hmiss]
  have hhit : getPromptsFromCache
      (setPromptsCache st.cache cacheKey st.nextPid t0) cacheKey t1 =
      some st.nextPid := by
    unfold setPromptsCache cleanupPromptsCache
    unfold getPromptsFromCache
    have hkeep : (t0 - (⟨st.nextPid, t0⟩ : CacheEntry).timestamp <
        promptsCacheExpiry) := by
      simp [promptsCacheExpiry]
    simp only [mapSet, List.filter_cons]
    simp only [hkeep, decide_True, if_pos]
    simp [mapGet, List.find?_cons, hwin]
  rw [hfst]
  refine ⟨?_, ?_, rfl⟩ <;>
    · unfold generateQuickPromptsForKey
      simp only [hhit]

/-- Witness for C1: two quick calls at times 0 and 10. -/
theorem secondCall_sharesInflightPromise_witness :
    (generateQuickPromptsForKey
        ((generateQuickPromptsForKey ⟨[], 0, 0⟩ "k" 0).2) "k" 10).1 =
      (generateQuickPromptsForKey ⟨[], 0, 0⟩ "k" 0).1 ∧
    (generateQuickPromptsForKey
        ((generateQuickPromptsForKey ⟨[], 0, 0⟩ "k" 0).2) "k" 10).2 =
      (generateQuickPromptsForKey ⟨[], 0, 0⟩ "k" 0).2 ∧
    ((generateQuickPromptsForKey ⟨[], 0, 0⟩ "k" 0).2).genCount = 0 + 1 :=
  secondCall_sharesInflightPromise ⟨[], 0, 0⟩ "k" 0 10 (by decide) (by decide)

/-- C1 counterexample: with the claim's hypotheses alone (second call
after the first stored its pending promise, before any settlement) the
code can still regenerate: at five minutes the entry has expired, the
second call gets a fresh promise and generation runs twice. -/
theorem secondCall_afterTTL_regenerates :
    (generateQuickPromptsForKey
        ((generateQuickPromptsForKey ⟨[], 0, 0⟩ "k" 0).2) "k"
        promptsCacheExpiry).1 ≠
      (generateQuickPromptsForKey ⟨[], 0, 0⟩ "k" 0).1 ∧
    ((generateQuickPromptsForKey
        ((generateQuickPromptsForKey ⟨[], 0, 0⟩ "k" 0).2) "k"
        promptsCacheExpiry).2).genCount = 2 := by decide

/-- C10: a tab-switch notification for exactly `about:blank` leaves the
context set, the shared transcript store, the chat transcript and the
presentation mode untouched: the reset/save/load sequence is skipped. -/
theorem updateTabStatus_aboutBlank_skips (st : SWState) (ti : TabInfo)
    (h : ti.url = "about:blank") :
    (updateTabStatus ti st).selectedTabContexts = st.selectedTabContexts ∧
    (updateTabStatus ti st).store = st.store ∧
    (updateTabStatus ti st).chatMessages = st.chatMessages ∧
    (updateTabStatus ti st).chatMode = st.chatMode := by
  simp [updateTabStatus, h]

/-- Witness for C10 at a concrete state. -/
theorem updateTabStatus_aboutBlank_skips_witness :
    (updateTabStatus ⟨"B", "new", "about:blank"⟩
        ⟨[⟨"A", "t", "https://a"⟩], some ⟨"A", "t", "https://a"⟩,
         [⟨"user", "hi"⟩], true, [("A", [⟨"user", "hi"⟩])]⟩).store =
      [("A", [⟨"user", "hi"⟩])] :=
  (updateTabStatus_aboutBlank_skips
      ⟨[⟨"A", "t", "https://a"⟩], some ⟨"A", "t", "https://a"⟩,
       [⟨"user", "hi"⟩], true, [("A", [⟨"user", "hi"⟩])]⟩
      ⟨"B", "new", "about:blank"⟩ rfl).2.1

theorem foldl_setChatMessages_get (msgs : List ChatMessage)
    (hm : msgs.isEmpty = false) :
    ∀ (tabs : List TabInfo) (s : List (String × List ChatMessage))
      (k : String),
      mapGet (tabs.foldl (fun s tab => setChatMessages s tab.tabId msgs) s) k =
        if k ∈ tabs.map TabInfo.tabId then some msgs else mapGet s k := by
  intro tabs
  induction tabs with
  | nil => intro s k; simp
  | cons t rest ih =>
      intro s k
      simp only [List.foldl_cons, List.map_cons, List.mem_cons]
      rw [ih]
      by_cases hk : k ∈ rest.map TabInfo.tabId
      · simp [hk]
      · simp only [hk, if_neg, or_false]
        simp only [setChatMessages, hm, Bool.false_eq_true, if_false,
          mapGet_mapSet]

/-- C6 counterexample: with an empty current transcript, `save` leaves
the previously stored entry for a context member untouched instead of
clearing it. -/
theorem saveEmptyTranscript_keepsEntries :
    (saveChatMessagesForCurrentContext
        ⟨[⟨"A", "t", "https://a"⟩], none, [], false,
         [("A", [⟨"user", "hi"⟩])]⟩).chatMessages = [] ∧
    mapGet (saveChatMessagesForCurrentContext
        ⟨[⟨"A", "t", "https://a"⟩], none, [], false,
         [("A", [⟨"user", "hi"⟩])]⟩).store "A" =
      some [⟨"user", "hi"⟩] := by decide

/-- C6 (amended): on a context transition, `save` writes the current
transcript under every document id of the outgoing context set when the
transcript is non-empty; when the transcript is empty it performs no
store writes at all, leaving previously stored entries (and the rest of
the state) unchanged.  Clearing on empty input happens only in the
lower-level `setChatMessages`, which `save` then never reaches. -/
theorem saveChat_writesAllIds_skipsWhenEmpty (st : SWState) :
    (st.chatMessages ≠ [] → ∀ tab ∈ st.selectedTabContexts,
        mapGet (saveChatMessagesForCurrentContext st).store tab.tabId =
          some st.chatMessages) ∧
    (st.chatMessages = [] → saveChatMessagesForCurrentContext st = st) ∧
    (∀ (store : List (String × List ChatMessage)) (tabId : String),
        mapGet (setChatMessages store tabId []) tabId = none) := by
  refine ⟨fun hne tab htab => ?_, fun he => ?_, fun store tabId => ?_⟩
  · have hm : st.chatMessages.isEmpty = false := by
      simpa [List.isEmpty_iff] using hne
    unfold saveChatMessagesForCurrentContext
    rw [if_neg (by simp [hm])]
    simp only
    rw [foldl_setChatMessages_get st.chatMessages hm]
    rw [if_pos (List.mem_map_of_mem TabInfo.tabId htab)]
  · unfold saveChatMessagesForCurrentContext
    rw [if_pos (by simp [he])]
  · unfold setChatMessages
    rw [if_pos (by simp)]
    rw [mapGet_mapDelete]
    simp

/-- Witness for C6: a non-empty transcript lands under a member id, and
a direct empty `setChatMessages` deletes. -/
theorem saveChat_writesAllIds_skipsWhenEmpty_witness :
    mapGet (saveChatMessagesForCurrentContext
        ⟨[⟨"A", "t", "https://a"⟩], none, [⟨"user", "hi"⟩], true, []⟩).store
        "A" = some [⟨"user", "hi"⟩] ∧
    mapGet (setChatMessages [("A", [⟨"user", "hi"⟩])] "A" []) "A" = none :=
  ⟨(saveChat_writesAllIds_skipsWhenEmpty
      ⟨[⟨"A", "t", "https://a"⟩], none, [⟨"user", "hi"⟩], true, []⟩).1
      (by decide) ⟨"A", "t", "https://a"⟩ (by decide),
   (saveChat_writesAllIds_skipsWhenEmpty
      ⟨[], none, [], false, []⟩).2.2 [("A", [⟨"user", "hi"⟩])] "A"⟩

/-- The spec's resolution step (2): the first member of the context set,
in order, with a non-empty stored transcript. -/
def firstStoredTranscript (store : List (String × List ChatMessage))
    (tabs : List TabInfo) : List ChatMessage :=
  match tabs.find? (fun t => !(getChatMessages store t.tabId).isEmpty) with
  | some t => getChatMessages store t.tabId
  | none => []

theorem scanContexts_eq_firstStored
    (store : List (String × List ChatMessage)) (tabs : List TabInfo) :
    scanContextsForMessages store tabs = firstStoredTranscript store tabs := by
  induction tabs with
  | nil => rfl
  | cons t rest ih =>
      unfold scanContextsForMessages firstStoredTranscript
      by_cases h : (getChatMessages store t.tabId).isEmpty
      · simp only [h, if_pos, List.find?_cons, Bool.not_true, cond_false]
        rw [ih]
        rfl
      · have hb : (getChatMessages store t.tabId).isEmpty = false := by
          simpa using h
        simp [List.find?_cons, hb]

/-- C7: on a context transition, `load` resolves in the spec's order:
the current primary tab's stored transcript when that tab belongs to
the new context set and its transcript is non-empty, otherwise the
first non-empty stored transcript among the set's members in order,
otherwise the empty transcript; and the presentation mode is switched
as a side effect in every case: conversation for a non-empty result,
results for an empty one. -/
theorem loadChat_resolutionOrder_and_mode (st : SWState) :
    ((loadChatMessagesForCurrentContext st).chatMessages =
      match st.lastTabInfo with
      | some ti =>
          if (st.selectedTabContexts.any fun t => t.tabId == ti.tabId) = true ∧
              getChatMessages st.store ti.tabId ≠ [] then
            getChatMessages st.store ti.tabId
          else firstStoredTranscript st.store st.selectedTabContexts
      | none => firstStoredTranscript st.store st.selectedTabContexts) ∧
    ((loadChatMessagesForCurrentContext st).chatMode =
      !(loadChatMessagesForCurrentContext st).chatMessages.isEmpty) ∧
    (loadChatMessagesForCurrentContext st).store = st.store ∧
    (loadChatMessagesForCurrentContext st).selectedTabContexts =
      st.selectedTabContexts := by
  unfold loadChatMessagesForCurrentContext
  rw [scanContexts_eq_firstStored]
  cases hlt : st.lastTabInfo with
  | none =>
      cases hfs : firstStoredTranscript st.store st.selectedTabContexts <;>
        simp [hfs]
  | some ti =>
      cases hin : st.selectedTabContexts.any fun t => t.tabId == ti.tabId with
      | false =>
          cases hfs : firstStoredTranscript st.store st.selectedTabContexts <;>
            simp [hin, hfs]
      | true =>
          cases hget : getChatMessages st.store ti.tabId with
          | nil =>
              cases hfs : firstStoredTranscript st.store
                  st.selectedTabContexts <;>
                simp [hin, hget, hfs]
          | cons a l => simp [hin, hget]

/-- C9: when the external autocomplete query fails, the emitted list is
exactly the fixed four-entry fallback in fixed order: the query with
its classified type; the query, with `?` appended when the classified
type is search, with the toggled type; `tab next` as action; and the
generic domain as navigate. -/
theorem errorFallback_isFixedFourEntries (query : String) :
    liveSuggestionsErrorFallback query =
      [⟨query, detectQueryType query⟩,
       ⟨if detectQueryType query = QueryType.search then query ++ "?" else query,
        toggledType (detectQueryType query)⟩,
       ⟨"tab next", QueryType.action⟩,
       ⟨"github.com", QueryType.navigate⟩] ∧
    (liveSuggestionsErrorFallback query).length = 4 := by
  unfold liveSuggestionsErrorFallback toggledType
  cases h : detectQueryType query <;> simp [h, String.append_empty]

theorem addFallbacks_stuck (fbs : List Suggestion) (base : List Suggestion)
    (h6 : 6 ≤ base.length) :
    fbs.foldl (fun acc fb =>
      if acc.length < 6 && !acc.any (fun s => s.text == fb.text) then
        acc ++ [fb]
      else acc) base = base := by
  induction fbs with
  | nil => rfl
  | cons fb rest ih =>
      simp only [List.foldl_cons]
      rw [if_neg (by simp [Nat.not_lt.mpr h6])]
      exact ih

theorem addFallbacks_eq_foldl (fbs : List Suggestion) :
    ∀ base : List Suggestion,
      addFallbacks base fbs =
        fbs.foldl (fun acc fb =>
          if acc.length < 6 && !acc.any (fun s => s.text == fb.text) then
            acc ++ [fb]
          else acc) base := by
  induction fbs with
  | nil => intro base; rfl
  | cons fb rest ih =>
      intro base
      simp only [addFallbacks, List.foldl_cons]
      by_cases h6 : 6 ≤ base.length
      · rw [if_pos h6, if_neg (by simp [Nat.not_lt.mpr h6])]
        exact (addFallbacks_stuck rest base h6).symm
      · rw [if_neg h6]
        by_cases hdup : base.any (fun s => s.text == fb.text)
        · rw [if_pos hdup, if_neg (by simp [hdup])]
          exact ih base
        · rw [if_neg hdup,
            if_pos (by simp [hdup, Nat.lt_of_not_le h6])]
          exact ih (base ++ [fb])

theorem map_textType_id (l : List Suggestion) :
    l.map (fun s => (⟨s.text, s.type⟩ : Suggestion)) = l :=
  List.map_id l

theorem merged_align (results : List Suggestion) :
    (searchDerived results ++
      ((results.filter (fun s => s.type == QueryType.navigate)).take 2).map
        (fun s => (⟨s.text, s.type⟩ : Suggestion))) ++
      ((results.filter (fun s => s.type == QueryType.action)).take 2).map
        (fun s => (⟨s.text, s.type⟩ : Suggestion)) =
    specMerged results := by
  rw [map_textType_id, map_textType_id]
  unfold searchDerived specMerged
  cases hsr : results.filter (fun s => s.type == QueryType.search) with
  | nil => simp
  | cons first rest =>
      simp [List.map_take, List.map_map, List.append_assoc]
      try rfl

theorem fill_align (query : String) (l : List Suggestion) :
    fillToMinimum query l = specFill query l := by
  unfold fillToMinimum specFill ensurePresent
  simp only [addFallbacks_eq_foldl]
  by_cases h4 : l.length < 4
  · rw [if_pos h4, if_pos h4]
    by_cases hq : l.any (fun s => s.text == query)
    · simp only [hq, if_pos]
      by_cases hs : detectQueryType query == QueryType.search
      · simp only [hs, Bool.true_and, if_pos]
        by_cases hv : l.any (fun s => s.text == query ++ "?")
        · simp [hv]
        · simp [hv]
      · have hs2 : (detectQueryType query == QueryType.search) = false := by
          simpa using hs
        simp [hs2]
    · have hq2 : l.any (fun s => s.text == query) = false := by simpa using hq
      simp only [hq2, Bool.false_eq_true, if_false]
      by_cases hs : detectQueryType query == QueryType.search
      · simp only [hs, Bool.true_and, if_pos]
        by_cases hv : (l ++ [(⟨query, detectQueryType query⟩ : Suggestion)]).any
            (fun s => s.text == query ++ "?")
        · simp [hv]
        · simp [hv]
      · have hs2 : (detectQueryType query == QueryType.search) = false := by
          simpa using hs
        simp [hs2]
  · rw [if_neg h4, if_neg h4]

/-- C5: the success-path emission of `generateLiveSuggestions` equals
the spec's reference construction, and never exceeds ten entries. -/
theorem liveSuggestions_matchSpec_and_capped (query : String)
    (results : List Suggestion) :
    generateSuggestionsFromResults query results =
      specLiveSuggestions query results ∧
    (generateSuggestionsFromResults query results).length ≤ 10 := by
  refine ⟨?_, List.length_take_le 10 _⟩
  unfold generateSuggestionsFromResults specLiveSuggestions
  dsimp only
  rw [merged_align, fill_align]

theorem getLastD_map_snd (l : List (Nat × String)) :
    ∀ a : Nat × String, (l.map Prod.snd).getLastD a.2 = (l.getLastD a).2 := by
  induction l with
  | nil => intro a; rfl
  | cons x xs ih =>
      intro a
      simp only [List.map_cons, List.getLastD_cons]
      exact ih x

theorem runHandleSearch_pending :
    ∀ (events : List (Nat × String)) (d : Nat) (q : String)
      (issued : List String),
      (∀ e ∈ events, (jsTrim e.2.data).isEmpty = false) →
      (∀ e ∈ events.head?, e.1 < d) →
      events.Chain' (fun a b => b.1 < a.1 + 50) →
      (runHandleSearch ⟨some (d, q), issued⟩ events).issued =
        issued ++ [(events.map Prod.snd).getLastD q] ∧
      (runHandleSearch ⟨some (d, q), issued⟩ events).timer = none := by
  intro events
  induction events with
  | nil =>
      intro d q issued _ _ _
      simp [runHandleSearch, fireDebounceTimer]
  | cons e rest ih =>
      intro d q issued hq hhead hchain
      obtain ⟨t1, q1⟩ := e
      have hlt : t1 < d := hhead (t1, q1) (by simp)
      have hdue : timerDue (some (d, q)) t1 = false := by
        simp [timerDue, Nat.not_le.mpr hlt]
      have hq1 : (jsTrim q1.data).isEmpty = false := hq (t1, q1) (by simp)
      have hstep : handleSearchStep t1 q1 ⟨some (d, q), issued⟩ =
          ⟨some (t1 + 50, q1), issued⟩ := by
        unfold handleSearchStep
        rw [if_neg (by simp [hq1])]
      rw [runHandleSearch]
      rw [hdue]
      simp only [Bool.false_eq_true, if_false]
      rw [hstep]
      have hrest := ih (t1 + 50) q1 issued
        (fun e he => hq e (List.mem_cons_of_mem _ he))
        (fun e he => by
          have := List.chain'_cons'.mp hchain
          exact this.1 e he)
        (List.chain'_cons'.mp hchain).2
      refine ⟨?_, hrest.2⟩
      rw [hrest.1, List.map_cons, List.getLastD_cons]

/-- C8: any non-empty sequence of `handleSearch` calls with non-empty
texts, each arriving within 50 ms of the previous one (so no pending
debounce timer fires in between), issues exactly one external
autocomplete query, for the last text of the sequence; each call
cancels the previously pending timer before starting its own. -/
theorem debounce_exactlyOneQuery_forLastText (st0 : DebounceState)
    (events : List (Nat × String)) (htimer : st0.timer = none)
    (hne : events ≠ [])
    (hq : ∀ e ∈ events, (jsTrim e.2.data).isEmpty = false)
    (hwin : events.Chain' (fun a b => b.1 < a.1 + 50)) :
    (runHandleSearch st0 events).issued =
      st0.issued ++ [(events.getLast hne).2] ∧
    (runHandleSearch st0 events).timer = none := by
  match events, hne with
  | (t1, q1) :: rest, _ =>
      have hq1 : (jsTrim q1.data).isEmpty = false := hq (t1, q1) (by simp)
      have hstep : handleSearchStep t1 q1 ⟨st0.timer, st0.issued⟩ =
          ⟨some (t1 + 50, q1), st0.issued⟩ := by
        unfold handleSearchStep
        rw [if_neg (by simp [hq1])]
      rw [runHandleSearch]
      rw [htimer]
      simp only [timerDue, Bool.false_eq_true, if_false]
      have hst0 : st0 = ⟨st0.timer, st0.issued⟩ := rfl
      rw [hst0, hstep]
      have hrest := runHandleSearch_pending rest (t1 + 50) q1 st0.issued
        (fun e he => hq e (List.mem_cons_of_mem _ he))
        (fun e he => (List.chain'_cons'.mp hwin).1 e he)
        (List.chain'_cons'.mp hwin).2
      refine ⟨?_, hrest.2⟩
      rw [hrest.1]
      rw [List.getLast_eq_getLastD]
      dsimp only
      have hx : (List.map Prod.snd rest).getLastD q1 =
          (rest.getLastD (t1, q1)).2 := getLastD_map_snd rest (t1, q1)
      rw [hx]

/-- Witness for C8: three calls at 0, 10 and 20 ms issue one query,
for the last text. -/
theorem debounce_exactlyOneQuery_forLastText_witness :
    (runHandleSearch ⟨none, []⟩ [(0, "a"), (10, "ab"), (20, "abc")]).issued =
      [] ++ [(([(0, "a"), (10, "ab"), (20, "abc")] :
        List (Nat × String)).getLast (by decide)).2] ∧
    (runHandleSearch ⟨none, []⟩ [(0, "a"), (10, "ab"), (20, "abc")]).timer =
      none :=
  debounce_exactlyOneQuery_forLastText ⟨none, []⟩
    [(0, "a"), (10, "ab"), (20, "abc")] rfl (by decide)
    (by decide) (by simp [List.chain'_cons])

theorem append_sepHead_inj (a : List Char) :
    ∀ (b u v : List Char), ':' ∉ a → ':' ∉ b →
      a ++ ':' :: u = b ++ ':' :: v → a = b ∧ u = v := by
  induction a with
  | nil =>
      intro b u v _ hb h
      cases b with
      | nil => simpa using h
      | cons c bs =>
          simp only [List.nil_append, List.cons_append, List.cons.injEq] at h
          exact absurd (h.1 ▸ List.mem_cons_self c bs) hb
  | cons c as ih =>
      intro b u v ha hb h
      cases b with
      | nil =>
          simp only [List.cons_append, List.nil_append, List.cons.injEq] at h
          exact absurd (h.1 ▸ List.mem_cons_self c as) ha
      | cons c2 bs =>
          simp only [List.cons_append, List.cons.injEq] at h
          obtain ⟨hab, huv⟩ := ih bs u v
            (fun hx => ha (List.mem_cons_of_mem c hx))
            (fun hx => hb (List.mem_cons_of_mem c2 hx)) h.2
          exact ⟨by rw [h.1, hab], huv⟩

theorem joinSep_inj (l1 : List (List Char)) :
    ∀ l2 : List (List Char),
      (∀ x ∈ l1, ':' ∉ x) → (∀ x ∈ l2, ':' ∉ x) →
      l1.length = l2.length → joinSep l1 = joinSep l2 → l1 = l2 := by
  induction l1 with
  | nil =>
      intro l2 _ _ hlen _
      cases l2 with
      | nil => rfl
      | cons b bs => simp at hlen
  | cons a r1 ih =>
      intro l2 h1 h2 hlen hj
      cases l2 with
      | nil => simp at hlen
      | cons b r2 =>
          cases r1 with
          | nil =>
              cases r2 with
              | nil => simp only [joinSep] at hj; rw [hj]
              | cons c r2t => simp at hlen
          | cons c1 r1t =>
              cases r2 with
              | nil => simp at hlen
              | cons c2 r2t =>
                  simp only [joinSep] at hj
                  obtain ⟨hab, hrest⟩ := append_sepHead_inj a b _ _
                    (h1 a (by simp)) (h2 b (by simp)) hj
                  have hj2 : joinSep (c1 :: r1t) = joinSep (c2 :: r2t) :=
                    (List.cons.injEq _ _ _ _ ▸ hrest :
                      ':' = ':' ∧ _ = _).2
                  have htail := ih (c2 :: r2t)
                    (fun x hx => h1 x (List.mem_cons_of_mem _ hx))
                    (fun x hx => h2 x (List.mem_cons_of_mem _ hx))
                    (by simpa using hlen) hj2
                  rw [hab, htail]

theorem tabKeyStr_colonFree (t : TabInfo) (ht : ':' ∉ t.title.data)
    (hu : ':' ∉ t.url.data) : ':' ∉ tabKeyStr t := by
  unfold tabKeyStr
  intro hmem
  rcases List.mem_append.mp hmem with h | h
  · exact ht h
  · rcases List.mem_cons.mp h with h | h
    · exact absurd h (by decide)
    · exact hu h

theorem tabKeyStr_inj_field (tab tab' : TabInfo)
    (h : tabKeyStr tab = tabKeyStr tab')
    (hc : tab'.title = tab.title ∧ tab'.url ≠ tab.url ∨
          tab'.url = tab.url ∧ tab'.title ≠ tab.title) : False := by
  unfold tabKeyStr at h
  rcases hc with ⟨hteq, hune⟩ | ⟨hueq, htne⟩
  · rw [hteq] at h
    have hu : tab.url.data = tab'.url.data :=
      (List.cons.injEq _ _ _ _ ▸ List.append_cancel_left h :
        ('|' : Char) = '|' ∧ _ = _).2
    exact hune (String.ext hu.symm)
  · have hlen : tab.title.data.length = tab'.title.data.length := by
      have hl := congrArg List.length h
      simp only [List.length_append, List.length_cons, hueq] at hl
      omega
    obtain ⟨h1, _⟩ := List.append_inj h hlen
    exact htne (String.ext h1.symm)

theorem perm_single_replace (pre post : List (List Char))
    (x y : List Char)
    (hperm : (pre ++ x :: post).Perm (pre ++ y :: post)) : x = y := by
  have hc := hperm.count_eq x
  simp only [List.count_append, List.count_cons, beq_self_eq_true, if_pos] at hc
  by_cases hxy : y = x
  · exact hxy.symm
  · simp [hxy] at hc

/-- C3 counterexample: the cache key digest is not injective in a
single member field; changing one member's url from `a:::|b` to
`b:::|a` (title and the other member unchanged) leaves the key
identical, because the `|` / `::` delimiters also occur inside the
field values. -/
theorem cacheKey_singleUrlChange_collision :
    getContextCacheKey [⟨"1", ":", "a:::|b"⟩, ⟨"2", ":", "a:::|b:::|a"⟩] =
      getContextCacheKey [⟨"1", ":", "b:::|a"⟩, ⟨"2", ":", "a:::|b:::|a"⟩] ∧
    ("a:::|b" : String) ≠ "b:::|a" := by decide

/-- C3 (amended): the derived cache key is invariant under any
permutation of the context set; and changing a single member's title or
url to a different string changes the key whenever no member's title or
url contains a colon (without that proviso the key can collide, see the
counterexample). -/
theorem cacheKey_permInvariant_and_sensitivity :
    (∀ l1 l2 : List TabInfo, l1.Perm l2 →
        getContextCacheKey l1 = getContextCacheKey l2) ∧
    (∀ (pre post : List TabInfo) (tab tab' : TabInfo),
        (∀ t ∈ pre ++ tab :: post, ':' ∉ t.title.data ∧ ':' ∉ t.url.data) →
        ':' ∉ tab'.title.data → ':' ∉ tab'.url.data →
        (tab'.title = tab.title ∧ tab'.url ≠ tab.url ∨
         tab'.url = tab.url ∧ tab'.title ≠ tab.title) →
        getContextCacheKey (pre ++ tab :: post) ≠
          getContextCacheKey (pre ++ tab' :: post)) := by
  constructor
  · intro l1 l2 hperm
    unfold getContextCacheKey
    congr 1
    haveI : IsAntisymm (List Char) (· ≤ ·) := ⟨fun a b h1 h2 => le_antisymm h1 h2⟩
    refine List.eq_of_perm_of_sorted ?_
      (List.sorted_insertionSort _ _) (List.sorted_insertionSort _ _)
    exact ((List.perm_insertionSort _ _).trans (hperm.map tabKeyStr)).trans
      (List.perm_insertionSort _ _).symm
  · intro pre post tab tab' hall ht' hu' hfield hkey
    unfold getContextCacheKey at hkey
    have hcf1 : ∀ x ∈ List.insertionSort (· ≤ ·)
        ((pre ++ tab :: post).map tabKeyStr), ':' ∉ x := by
      intro x hx
      obtain ⟨t, htm, rfl⟩ :=
        List.mem_map.mp ((List.mem_insertionSort _).mp hx)
      exact tabKeyStr_colonFree t (hall t htm).1 (hall t htm).2
    have hcf2 : ∀ x ∈ List.insertionSort (· ≤ ·)
        ((pre ++ tab' :: post).map tabKeyStr), ':' ∉ x := by
      intro x hx
      obtain ⟨t, htm, rfl⟩ :=
        List.mem_map.mp ((List.mem_insertionSort _).mp hx)
      rcases List.mem_append.mp htm with hp | hp
      · have : t ∈ pre ++ tab :: post :=
          List.mem_append.mpr (Or.inl hp)
        exact tabKeyStr_colonFree t (hall t this).1 (hall t this).2
      · rcases List.mem_cons.mp hp with rfl | hp
        · exact tabKeyStr_colonFree t ht' hu'
        · have : t ∈ pre ++ tab :: post :=
            List.mem_append.mpr (Or.inr (List.mem_cons_of_mem _ hp))
          exact tabKeyStr_colonFree t (hall t this).1 (hall t this).2
    have hlen : (List.insertionSort (· ≤ ·)
        ((pre ++ tab :: post).map tabKeyStr)).length =
        (List.insertionSort (· ≤ ·)
          ((pre ++ tab' :: post).map tabKeyStr)).length := by
      simp [List.length_insertionSort]
    have hLL := joinSep_inj _ _ hcf1 hcf2 hlen hkey
    have hperm : ((pre ++ tab :: post).map tabKeyStr).Perm
        ((pre ++ tab' :: post).map tabKeyStr) :=
      (List.perm_insertionSort _ _).symm.trans
        (hLL ▸ List.perm_insertionSort (· ≤ ·)
          ((pre ++ tab' :: post).map tabKeyStr))
    rw [List.map_append, List.map_cons, List.map_append, List.map_cons]
      at hperm
    exact tabKeyStr_inj_field tab tab'
      (perm_single_replace _ _ _ _ hperm) hfield

/-- Witness for C3: a two-element swap keeps the key; a colon-free
single-field change alters it. -/
theorem cacheKey_permInvariant_and_sensitivity_witness :
    getContextCacheKey [⟨"1", "a", "u"⟩, ⟨"2", "b", "v"⟩] =
      getContextCacheKey [⟨"2", "b", "v"⟩, ⟨"1", "a", "u"⟩] ∧
    getContextCacheKey [⟨"1", "a", "u"⟩] ≠
      getContextCacheKey [⟨"1", "a", "w"⟩] :=
  ⟨cacheKey_permInvariant_and_sensitivity.1 _ _ (by decide),
   cacheKey_permInvariant_and_sensitivity.2 [] [] ⟨"1", "a", "u"⟩
     ⟨"1", "a", "w"⟩ (by decide) (by decide) (by decide)
     (Or.inl ⟨rfl, by decide⟩)⟩

/-- The path-bearing alternative of `matchHostWithPath`: a dotted host
followed by `/` and a path. -/
def hostWithSlashPath (cs : List Char) : Bool :=
  (List.range (cs.length + 1)).any fun i =>
    matchBareHost (cs.take i) &&
      ((cs.drop i).head? == some '/') && (cs.drop i).tail.all jsDotChar

theorem isPrefixOfIff {l1 l2 : List Char} :
    l1.isPrefixOf l2 = true ↔ l1 <+: l2 :=
  List.isPrefixOf_iff_prefix

theorem rtrimIsPrefix (xs : List Char) :
    (xs.reverse.dropWhile jsWhitespace).reverse <+: xs := by
  have h := List.dropWhile_suffix (l := xs.reverse) jsWhitespace
  have h2 := List.reverse_prefix.mpr h
  simpa using h2

theorem rtrim_eq_self (L : List Char) (c : Char) (hc : L.getLast? = some c)
    (hws : jsWhitespace c = false) :
    (L.reverse.dropWhile jsWhitespace).reverse = L := by
  have hh : L.reverse.head? = some c := by rw [List.head?_reverse, hc]
  cases hrev : L.reverse with
  | nil => rw [hrev] at hh; simp at hh
  | cons d ds =>
      rw [hrev] at hh
      have hdc : d = c := by simpa using hh
      rw [List.dropWhile_cons, if_neg (by simp [hdc, hws])]
      rw [← hrev, List.reverse_reverse]

theorem jsTrim_append_q (xs : List Char)
    (h : xs.dropWhile jsWhitespace ≠ []) :
    jsTrim (xs ++ ['?']) = xs.dropWhile jsWhitespace ++ ['?'] := by
  unfold jsTrim
  rw [List.dropWhile_append, if_neg (by simpa [List.isEmpty_iff] using h)]
  rw [List.reverse_append]
  simp only [List.reverse_cons, List.reverse_nil, List.nil_append,
    List.singleton_append]
  rw [List.dropWhile_cons, if_neg (by decide)]
  rw [List.reverse_cons, List.reverse_reverse]

theorem jsNormalize_append_q (q : String)
    (h : q.data.dropWhile jsWhitespace ≠ []) :
    jsNormalize (q ++ "?") =
      (q.data.dropWhile jsWhitespace).map Char.toLower ++ ['?'] := by
  unfold jsNormalize
  rw [String.data_append]
  have hqd : ("?" : String).data = ['?'] := rfl
  rw [hqd, jsTrim_append_q _ h, List.map_append]
  rfl

theorem isPrefixOf_concat_true (w t : List Char) (h : w.isPrefixOf t = true) :
    w.isPrefixOf (t ++ ['?']) = true := by
  rw [isPrefixOfIff] at h ⊢
  exact h.trans (List.prefix_append _ _)

theorem prefix_concat_cases (p t : List Char) (c : Char)
    (h : p <+: t ++ [c]) : p <+: t ∨ p = t ++ [c] := by
  by_cases hl : p.length ≤ t.length
  · exact Or.inl (List.prefix_of_prefix_length_le h (List.prefix_append t [c]) hl)
  · right
    apply h.eq_of_length
    have h1 : p.length ≤ (t ++ [c]).length := h.length_le
    simp only [List.length_append, List.length_cons, List.length_nil] at h1 ⊢
    omega

theorem isPrefixOf_concat_false (w t : List Char)
    (hlast : w.getLast? ≠ some '?')
    (h : w.isPrefixOf t = false) :
    w.isPrefixOf (t ++ ['?']) = false := by
  rw [Bool.eq_false_iff] at h ⊢
  intro hcon
  rw [isPrefixOfIff] at hcon
  rcases prefix_concat_cases _ _ _ hcon with hx | hx
  · exact h (isPrefixOfIff.mpr hx)
  · apply hlast
    rw [hx, List.getLast?_append]
    rfl

theorem stripHttpPrefix_append_q (t : List Char) :
    stripHttpPrefix (t ++ ['?']) = stripHttpPrefix t ++ ['?'] := by
  unfold stripHttpPrefix
  by_cases h8 : "https://".data.isPrefixOf t = true
  · have h8c := isPrefixOf_concat_true _ _ h8
    simp only [h8, h8c, if_true]
    have hle := (isPrefixOfIff.mp h8).length_le
    have h88 : ("https://".data).length = 8 := by decide
    rw [h88] at hle
    exact List.drop_append_of_le_length hle
  · have h8b : "https://".data.isPrefixOf t = false := Bool.eq_false_iff.mpr h8
    have h8c : "https://".data.isPrefixOf (t ++ ['?']) = false :=
      isPrefixOf_concat_false _ t (by decide) h8b
    simp only [h8b, h8c, Bool.false_eq_true, if_false]
    by_cases h7 : "http://".data.isPrefixOf t = true
    · have h7c := isPrefixOf_concat_true _ _ h7
      simp only [h7, h7c, if_true]
      have hle := (isPrefixOfIff.mp h7).length_le
      have h77 : ("http://".data).length = 7 := by decide
      rw [h77] at hle
      exact List.drop_append_of_le_length hle
    · have h7b : "http://".data.isPrefixOf t = false := Bool.eq_false_iff.mpr h7
      have h7c : "http://".data.isPrefixOf (t ++ ['?']) = false :=
        isPrefixOf_concat_false _ t (by decide) h7b
      simp only [h7b, h7c, Bool.false_eq_true, if_false]

theorem hostWithSlashPath_extend (u : List Char)
    (h : hostWithSlashPath u = true) :
    matchHostWithPath (u ++ ['?']) = true := by
  unfold hostWithSlashPath at h
  unfold matchHostWithPath
  rw [List.any_eq_true] at h ⊢
  obtain ⟨i, hi, hprop⟩ := h
  rw [List.mem_range] at hi
  simp only [Bool.and_eq_true] at hprop
  obtain ⟨⟨hbare, hhead⟩, htail⟩ := hprop
  have hile : i ≤ u.length := by omega
  refine ⟨i, List.mem_range.mpr (by
    simp only [List.length_append, List.length_cons, List.length_nil]
    omega), ?_⟩
  simp only [Bool.and_eq_true]
  refine ⟨?_, ?_⟩
  · rw [List.take_append_of_le_length hile]
    exact hbare
  · rw [List.drop_append_of_le_length hile]
    have hhead2 : (u.drop i).head? = some '/' := by simpa using hhead
    cases hdrop : u.drop i with
    | nil => rw [hdrop] at hhead2; simp at hhead2
    | cons d ds =>
        rw [hdrop] at hhead2 htail
        have hd : d = '/' := by simpa using hhead2
        simp only [List.cons_append, List.head?_cons, List.tail_cons,
          List.isEmpty_cons, Bool.false_or]
        rw [List.all_append]
        simp only [List.tail_cons] at htail
        have hq : jsDotChar '?' = true := by decide
        simp [hd, htail, hq]

theorem scheme_append_q (q : String)
    (hs : hasSchemePrefix (jsNormalize q) = true) :
    detectQueryType (q ++ "?") = QueryType.navigate := by
  have hne : jsNormalize q ≠ [] := by
    intro h0
    rw [h0] at hs
    exact absurd hs (by decide)
  have hL : q.data.dropWhile jsWhitespace ≠ [] := by
    intro h0
    apply hne
    unfold jsNormalize jsTrim
    rw [h0]
    rfl
  have hpre : jsNormalize q <+:
      (q.data.dropWhile jsWhitespace).map Char.toLower := by
    unfold jsNormalize jsTrim
    exact List.IsPrefix.map Char.toLower (rtrimIsPrefix _)
  have hnorm := jsNormalize_append_q q hL
  have hs2 : hasSchemePrefix (jsNormalize (q ++ "?")) = true := by
    rw [hnorm]
    unfold hasSchemePrefix at hs ⊢
    simp only [Bool.or_eq_true] at hs ⊢
    have hext : ∀ w : List Char, w.isPrefixOf (jsNormalize q) = true →
        w.isPrefixOf ((q.data.dropWhile jsWhitespace).map Char.toLower ++
          ['?']) = true := by
      intro w hw
      rw [isPrefixOfIff] at hw ⊢
      exact (hw.trans hpre).trans (List.prefix_append _ _)
    rcases hs with (h | h) | h
    · exact Or.inl (Or.inl (hext _ h))
    · exact Or.inl (Or.inr (hext _ h))
    · exact Or.inr (hext _ h)
  unfold detectQueryType
  rw [if_pos (by rw [hs2]; rfl :
    (hasSchemePrefix (jsNormalize (q ++ "?")) ||
      matchHostWithPath (stripHttpPrefix (jsNormalize (q ++ "?")))) = true)]

theorem hostPath_append_q (q : String)
    (hlast : (q.data.getLast?.all fun c => !jsWhitespace c) = true)
    (hp : hostWithSlashPath (stripHttpPrefix (jsNormalize q)) = true) :
    detectQueryType (q ++ "?") = QueryType.navigate := by
  have hL : q.data.dropWhile jsWhitespace ≠ [] := by
    intro h0
    have hz : jsNormalize q = [] := by
      unfold jsNormalize jsTrim
      rw [h0]
      rfl
    rw [hz] at hp
    exact absurd hp (by decide)
  obtain ⟨c, hc⟩ : ∃ c, q.data.getLast? = some c := by
    cases hg : q.data.getLast? with
    | none =>
        exfalso
        apply hL
        rw [List.getLast?_eq_none_iff.mp hg]
        rfl
    | some c => exact ⟨c, rfl⟩
  have hcw : jsWhitespace c = false := by
    rw [hc, Option.all_some] at hlast
    simpa using hlast
  obtain ⟨w, hw⟩ := List.dropWhile_suffix (l := q.data) jsWhitespace
  have hLlast : (q.data.dropWhile jsWhitespace).getLast? = some c := by
    rw [← hw, List.getLast?_append] at hc
    cases hdl : (q.data.dropWhile jsWhitespace).getLast? with
    | none => exact absurd (List.getLast?_eq_none_iff.mp hdl) hL
    | some d =>
        rw [hdl] at hc
        simpa using hc
  have hnq : jsNormalize q =
      (q.data.dropWhile jsWhitespace).map Char.toLower := by
    unfold jsNormalize jsTrim
    rw [rtrim_eq_self _ c hLlast hcw]
  have heq : jsNormalize (q ++ "?") = jsNormalize q ++ ['?'] := by
    rw [jsNormalize_append_q q hL, hnq]
  have hmatch : matchHostWithPath
      (stripHttpPrefix (jsNormalize (q ++ "?"))) = true := by
    rw [heq, stripHttpPrefix_append_q]
    exact hostWithSlashPath_extend _ hp
  unfold detectQueryType
  rw [if_pos (by rw [hmatch, Bool.or_true] :
    (hasSchemePrefix (jsNormalize (q ++ "?")) ||
      matchHostWithPath (stripHttpPrefix (jsNormalize (q ++ "?")))) = true)]

/-- C2 counterexample: `example.com` is classified navigate by rule 1
(the dotted-host alternative, with no scheme prefix), yet appending `?`
yields chat: the anchored host regex cannot absorb the trailing `?`, so
rule 1 no longer matches and rule 3 (ends with `?`) fires. -/
theorem bareHost_appendQuestion_chat :
    detectQueryType "example.com" = QueryType.navigate ∧
    hasSchemePrefix (jsNormalize "example.com") = false ∧
    matchHostWithPath (stripHttpPrefix (jsNormalize "example.com")) = true ∧
    detectQueryType "example.com?" = QueryType.chat := by decide

/-- C2 (amended): appending `?` preserves a rule-1 navigate
classification when the input has a URL-scheme prefix, or when the
input has no trailing whitespace and its dotted host is followed by an
explicit `/` path; a bare dotted host without a path instead becomes
chat (see the counterexample). -/
theorem navigateRule1_appendQuestion (q : String) :
    (hasSchemePrefix (jsNormalize q) = true →
        detectQueryType (q ++ "?") = QueryType.navigate) ∧
    ((q.data.getLast?.all fun c => !jsWhitespace c) = true →
      hostWithSlashPath (stripHttpPrefix (jsNormalize q)) = true →
        detectQueryType (q ++ "?") = QueryType.navigate) :=
  ⟨scheme_append_q q, hostPath_append_q q⟩

/-- Witness for C2: a scheme-prefixed input and a host-with-path input
both stay navigate after `?` is appended. -/
theorem navigateRule1_appendQuestion_witness :
    detectQueryType ("about:flags" ++ "?") = QueryType.navigate ∧
    detectQueryType ("example.com/a" ++ "?") = QueryType.navigate :=
  ⟨(navigateRule1_appendQuestion "about:flags").1 (by decide),
   (navigateRule1_appendQuestion "example.com/a").2 (by decide) (by decide)⟩
